import Mathlib

/-!
# Verification of the `matrices-py` core (`matrices/abstract.py`,
# `matrices/protocols.py`, `matrices/shapes/abstract.py`)

Shallow embedding of the matrix core: a matrix is its shape (a pair of
non-negative dimensions) together with its row-major storage list, plus an
object identifier `oid` modelling Python object identity (`x is y`), which
is distinct from structural equality in Python.  The module-level functions
`matcmp`, `matmul`, `matmap` of `matrices/abstract.py` are translated
directly; fallible code returns `Except MatErr`.
-/

/-- The error conditions raised by the core (`ValueError` subclasses in the
source; the spec names them ShapeMismatch, DegenerateDimension,
LossyConversion). -/
inductive MatErr : Type where
  | shapeMismatch : MatErr
  | degenerateDimension : MatErr
  | lossyConversion : MatErr
deriving DecidableEq, Repr

/-- A matrix: shape `(nrows, ncols)` plus row-major flat storage `data`
(element at logical position `(i, j)` lives at flat index `i * ncols + j`).
The field `oid` models Python object identity: two `Mat` values are "the
same object" (`a is b`) exactly when they are equal as Lean values,
`oid` included; distinct objects with equal shape and storage model
Python's distinct-but-structurally-equal matrices. -/
structure Mat (α : Type) where
  nrows : Nat
  ncols : Nat
  data : List α
  oid : Nat := 0
deriving DecidableEq, Repr

namespace Matrices

variable {α β γ : Type}

/-- `ShapeLike.__eq__`: two shapes are equal iff both components match
pairwise (`self[0] == other[0] and self[1] == other[1]`); embedded as
equality of the pair of dimensions. -/
def matShape (a : Mat α) : Nat × Nat :=
  (a.nrows, a.ncols)

/-- `MatrixLike.size`: the product of the matrix's number of rows and
columns. -/
def matSize (a : Mat α) : Nat :=
  a.nrows * a.ncols

/-- The storage-length invariant established at construction
(`storage.length == shape.rows * shape.cols`). -/
def sizeInv (a : Mat α) : Prop :=
  a.data.length = a.nrows * a.ncols

instance (a : Mat α) : Decidable (sizeInv a) := by
  unfold sizeInv; infer_instance

/-- `matmap(func, a, b)`: raises `ValueError` when the two shapes are
unequal, otherwise returns `map(func, a, b)` — the pairwise mapping over
both matrices' row-major iteration, truncating at the shorter
(Python `map` over two iterators).  Row-major iteration of a matrix is its
storage list (`__iter__` yields `self[k]` for `k in range(size)`). -/
def matmap (f : α → β → γ) (a : Mat α) (b : Mat β) : Except MatErr (List γ) :=
  if matShape a = matShape b then
    Except.ok (List.zipWith f a.data b.data)
  else
    Except.error MatErr.shapeMismatch

/-- The loop of `matcmp`: `for x, y in zip(a, b): if x < y: return -1;
if x > y: return 1`, returning `0` on exhaustion (`zip` truncates at the
shorter operand). -/
def lexcmp [LinearOrder α] : List α → List α → Int
  | x :: xs, y :: ys =>
      if x < y then -1
      else if y < x then 1
      else lexcmp xs ys
  | _, _ => 0

/-- `matcmp(a, b)`: raises `ValueError` when the shapes are unequal,
otherwise the three-way lexicographic comparison of the row-major
iterations. -/
def matcmp [LinearOrder α] (a b : Mat α) : Except MatErr Int :=
  if matShape a = matShape b then
    Except.ok (lexcmp a.data b.data)
  else
    Except.error MatErr.shapeMismatch

/-- `functools.reduce(operator.add, xs)`: a left fold whose accumulator
starts at the first element; on an empty iterable Python raises
`TypeError`, embedded as `none`. -/
def reduceAdd [Add α] : List α → Option α
  | [] => none
  | x :: xs => Option.some (xs.foldl (· + ·) x)

/-- One inner product of `matmul`:
`reduce(add, map(lambda k: a[i * n + k] * b[k * q + j], range(n)))`,
where flat scalar indexing reads the row-major storage. -/
def dotAt [Add α] [Mul α] [Inhabited α] (a b : Mat α) (n q i j : Nat) : α :=
  (reduceAdd ((List.range n).map
    (fun k => a.data.getD (i * n + k) default * b.data.getD (k * q + j) default))).getD default

/-- The body of the generator `matmul(a, b)`: unpacks the shapes as
`(m, n), (p, q)`, raises `ValueError` when `n != p`, raises `ValueError`
when `not n` (i.e. `n == 0`), and otherwise yields, for `i in range(m)`
and `j in range(q)`, the left-fold inner product `dotAt`. -/
def matmulBody [Add α] [Mul α] [Inhabited α] (a b : Mat α) : Except MatErr (List α) :=
  let m := a.nrows
  let n := a.ncols
  let p := b.nrows
  let q := b.ncols
  if n ≠ p then Except.error MatErr.shapeMismatch
  else if n = 0 then Except.error MatErr.degenerateDimension
  else Except.ok ((List.range m).flatMap
    (fun i => (List.range q).map (fun j => dotAt a b n q i j)))

/-- A Python generator object: a suspended computation that, once first
advanced, either raises or produces its stream of yielded values.  The
body of a generator function does not run when the generator is called;
it runs on the first `next`. -/
structure Gen (α : Type) where
  pending : Except MatErr (List α)
deriving Repr

/-- Advancing a generator: runs the (remaining) body; an exception in the
body surfaces here, otherwise the next yielded value (or `none` on
exhaustion) is produced. -/
def Gen.next (g : Gen α) : Except MatErr (Option (α × Gen α)) :=
  match g.pending with
  | Except.error e => Except.error e
  | Except.ok [] => Except.ok Option.none
  | Except.ok (x :: xs) => Except.ok (Option.some (x, ⟨Except.ok xs⟩))

/-- Calling the generator function `matmul(a, b)`: since `matmul` contains
`yield`, the call merely constructs the generator object — the body (and
hence its shape validation) has not run, so the call itself cannot raise. -/
def matmulCall [Add α] [Mul α] [Inhabited α] (a b : Mat α) : Except MatErr (Gen α) :=
  Except.ok ⟨matmulBody a b⟩

/-- `MatrixLike.__eq__`: `True` on the identity short-circuit
(`self is other`), otherwise `all(matmap(lambda x, y: x is y or x == y,
self, other))`.  Element identity `x is y` is Lean equality; the element
type's own `__eq__` is the (possibly non-reflexive) parameter `beq`. -/
def matrixEq [DecidableEq α] (beq : α → α → Bool) (a b : Mat α) : Except MatErr Bool :=
  if a = b then Except.ok true
  else (matmap (fun x y => decide (x = y) || beq x y) a b).map (List.all · id)

/-- Python's default `!=`: the negation of the `__eq__` result (no
`__ne__` is defined in the source). -/
def matrixNe [DecidableEq α] (beq : α → α → Bool) (a b : Mat α) : Except MatErr Bool :=
  (matrixEq beq a b).map (fun r => !r)

/-- `MatrixLike.__lt__`: `matcmp(self, other) < 0`. -/
def matrixLt [LinearOrder α] (a b : Mat α) : Except MatErr Bool :=
  (matcmp a b).map (fun c => decide (c < 0))

/-- `MatrixLike.__le__`: `matcmp(self, other) <= 0`. -/
def matrixLe [LinearOrder α] (a b : Mat α) : Except MatErr Bool :=
  (matcmp a b).map (fun c => decide (c ≤ 0))

/-- `MatrixLike.__gt__`: `matcmp(self, other) > 0`. -/
def matrixGt [LinearOrder α] (a b : Mat α) : Except MatErr Bool :=
  (matcmp a b).map (fun c => decide (0 < c))

/-- `MatrixLike.__ge__`: `matcmp(self, other) >= 0`. -/
def matrixGe [LinearOrder α] (a b : Mat α) : Except MatErr Bool :=
  (matcmp a b).map (fun c => decide (0 ≤ c))

/-- "All element pairs of `a`, `b` are related by `r`", over the zipped
row-major iterations — the relation the spec claims the matrix-level
comparison operators compute. -/
def allPairs (r : α → β → Bool) (a : Mat α) (b : Mat β) : Bool :=
  (a.data.zip b.data).all (fun p => r p.1 p.2)

/-- Modelled from the spec: `MatrixLike.lesser` is declared abstract in
`matrices/abstract.py` with contract "Return element-wise `a < b`"; per
the spec every element-wise operator routes through `matmap`. -/
def lesser [LinearOrder α] (a b : Mat α) : Except MatErr (List Bool) :=
  matmap (fun x y => decide (x < y)) a b

/-! ## Helper lemmas -/

lemma reduceAdd_range_succ (f : Nat → Int) (n : Nat) :
    reduceAdd ((List.range (n + 1)).map f) =
      Option.some (((List.range n).map (fun k => f (k + 1))).foldl (· + ·) (f 0)) := by
  rw [List.range_succ_eq_map]
  simp [reduceAdd, List.map_map, Function.comp_def]

lemma foldl_add_eq_add_sum (l : List Int) : ∀ x : Int, l.foldl (· + ·) x = x + l.sum := by
  induction l with
  | nil => intro x; simp
  | cons a l ih => intro x; simp only [List.foldl_cons, ih, List.sum_cons]; ring

lemma sum_map_range (f : Nat → Int) : ∀ n, ((List.range n).map f).sum = ∑ k ∈ Finset.range n, f k := by
  intro n
  induction n with
  | zero => simp
  | succ n ih => rw [List.range_succ]; simp [ih, Finset.sum_range_succ]

lemma reduceAdd_eq_sum (f : Nat → Int) (n : Nat) (hn : 0 < n) :
    (reduceAdd ((List.range n).map f)).getD 0 = ∑ k ∈ Finset.range n, f k := by
  obtain ⟨n', rfl⟩ := Nat.exists_eq_succ_of_ne_zero hn.ne'
  rw [reduceAdd_range_succ, Option.getD_some, foldl_add_eq_add_sum, sum_map_range,
    Finset.sum_range_succ' f n']
  ring

lemma length_grid (f : Nat → Nat → Int) (q : Nat) :
    ∀ m, ((List.range m).flatMap (fun i => (List.range q).map (f i))).length = m * q := by
  intro m
  induction m with
  | zero => simp
  | succ m ih => rw [List.range_succ, List.flatMap_append]; simp [ih, Nat.succ_mul]

lemma getD_grid (f : Nat → Nat → Int) (q : Nat) :
    ∀ m i j, i < m → j < q →
      ((List.range m).flatMap (fun i => (List.range q).map (f i))).getD (i * q + j) 0 = f i j := by
  intro m
  induction m with
  | zero => intro i j hi _; exact absurd hi (Nat.not_lt_zero i)
  | succ m ih =>
    intro i j hi hj
    rw [List.range_succ, List.flatMap_append]
    rcases Nat.lt_succ_iff_lt_or_eq.mp hi with h | rfl
    · rw [List.getD_append]
      · exact ih i j h hj
      · rw [length_grid]
        calc i * q + j < i * q + q := by omega
          _ = (i + 1) * q := by ring
          _ ≤ m * q := Nat.mul_le_mul_right q h
    · rw [List.getD_append_right]
      · rw [length_grid]
        have hidx : i * q + j - i * q = j := by omega
        rw [hidx]
        simp only [List.flatMap_cons, List.flatMap_nil, List.append_nil]
        rw [List.getD_eq_getElem?_getD, List.getElem?_map, List.getElem?_range hj]
        rfl
      · rw [length_grid]; omega

/-! ## Theorems for the claims -/

/-- **C1.** For matrices `a` of shape `(m, n)` and `b` of shape `(n, q)` with
`n > 0`, `matmul(a, b)` yields, in row-major order over the result shape
`(m, q)`, for every position `(i, j)` the sum over `k in [0, n)` of
`a[i*n + k] * b[k*q + j]`, accumulated by a left fold starting from the
first product term (no additive identity is introduced); in particular for
`a = [[1,2],[3,4]]` and `b = [[5,6],[7,8]]` the product is
`[[19,22],[43,50]]`. -/
theorem matmul_entries (a b : Mat Int) (hnp : a.ncols = b.nrows) (hn : 0 < a.ncols) :
    (∃ l, matmulBody a b = Except.ok l ∧ l.length = a.nrows * b.ncols ∧
      ∀ i, i < a.nrows → ∀ j, j < b.ncols →
        l.getD (i * b.ncols + j) 0 =
          ((List.range (a.ncols - 1)).map
            (fun k => a.data.getD (i * a.ncols + (k + 1)) 0 *
              b.data.getD ((k + 1) * b.ncols + j) 0)).foldl
            (· + ·)
            (a.data.getD (i * a.ncols + 0) 0 * b.data.getD (0 * b.ncols + j) 0) ∧
        l.getD (i * b.ncols + j) 0 =
          ∑ k ∈ Finset.range a.ncols,
            a.data.getD (i * a.ncols + k) 0 * b.data.getD (k * b.ncols + j) 0) ∧
    matmulBody (⟨2, 2, [1, 2, 3, 4], 0⟩ : Mat Int) ⟨2, 2, [5, 6, 7, 8], 0⟩ =
      Except.ok [19, 22, 43, 50] := by
  constructor
  · refine ⟨(List.range a.nrows).flatMap
      (fun i => (List.range b.ncols).map (fun j => dotAt a b a.ncols b.ncols i j)), ?_, ?_, ?_⟩
    · simp only [matmulBody]
      rw [if_neg (not_not_intro hnp), if_neg hn.ne']
    · exact length_grid _ _ _
    · intro i hi j hj
      rw [getD_grid _ _ _ i j hi hj]
      have hd : (default : Int) = 0 := rfl
      obtain ⟨n', hn' ⟩ := Nat.exists_eq_succ_of_ne_zero hn.ne'
      constructor
      · rw [dotAt, hd, hn', reduceAdd_range_succ, Option.getD_some]
        simp [hn']
      · rw [dotAt, hd, reduceAdd_eq_sum _ _ hn]
  · rfl

/-- Witness for C1 at concrete inputs (shapes `(2, 3)` and `(3, 1)`). -/
theorem matmul_entries_witness :
    0 < (⟨2, 3, [1, 2, 3, 4, 5, 6], 0⟩ : Mat Int).ncols ∧
    ((∃ l, matmulBody (⟨2, 3, [1, 2, 3, 4, 5, 6], 0⟩ : Mat Int) ⟨3, 1, [7, 8, 9], 0⟩ =
        Except.ok l ∧ l.length = 2 * 1 ∧
        ∀ i, i < 2 → ∀ j, j < 1 →
          l.getD (i * 1 + j) 0 =
            ((List.range (3 - 1)).map
              (fun k => (⟨2, 3, [1, 2, 3, 4, 5, 6], 0⟩ : Mat Int).data.getD (i * 3 + (k + 1)) 0 *
                (⟨3, 1, [7, 8, 9], 0⟩ : Mat Int).data.getD ((k + 1) * 1 + j) 0)).foldl
              (· + ·)
              ((⟨2, 3, [1, 2, 3, 4, 5, 6], 0⟩ : Mat Int).data.getD (i * 3 + 0) 0 *
                (⟨3, 1, [7, 8, 9], 0⟩ : Mat Int).data.getD (0 * 1 + j) 0) ∧
          l.getD (i * 1 + j) 0 =
            ∑ k ∈ Finset.range 3,
              (⟨2, 3, [1, 2, 3, 4, 5, 6], 0⟩ : Mat Int).data.getD (i * 3 + k) 0 *
                (⟨3, 1, [7, 8, 9], 0⟩ : Mat Int).data.getD (k * 1 + j) 0) ∧
      matmulBody (⟨2, 2, [1, 2, 3, 4], 0⟩ : Mat Int) ⟨2, 2, [5, 6, 7, 8], 0⟩ =
        Except.ok [19, 22, 43, 50]) :=
  ⟨by decide, matmul_entries ⟨2, 3, [1, 2, 3, 4, 5, 6], 0⟩ ⟨3, 1, [7, 8, 9], 0⟩ rfl (by decide)⟩

/-- **C2.** For matrices `a` of shape `(m, n)` and `b` of shape `(p, q)`,
`matmul` raises the ShapeMismatch condition exactly when `n ≠ p`, and when
`n = p` it raises the DegenerateDimension condition exactly when `n = 0`;
in every other case no error is raised and the product is produced. -/
theorem matmul_error_conditions {α : Type} [Add α] [Mul α] [Inhabited α] (a b : Mat α) :
    (matmulBody a b = Except.error MatErr.shapeMismatch ↔ a.ncols ≠ b.nrows) ∧
    (a.ncols = b.nrows →
      (matmulBody a b = Except.error MatErr.degenerateDimension ↔ a.ncols = 0)) ∧
    (a.ncols = b.nrows → a.ncols ≠ 0 → ∃ l, matmulBody a b = Except.ok l) := by
  by_cases h1 : a.ncols = b.nrows
  · by_cases h2 : a.ncols = 0
    · have h2' : b.nrows = 0 := h1 ▸ h2
      simp [matmulBody, h1, h2, h2']
    · have h2' : b.nrows ≠ 0 := h1 ▸ h2
      simp [matmulBody, h1, h2, h2']
  · simp [matmulBody, h1]

/-- Witness for C2: a degenerate inner dimension errors, matching inner
dimensions produce a product. -/
theorem matmul_error_conditions_witness :
    (matmulBody (⟨2, 0, [], 0⟩ : Mat Int) ⟨0, 3, [], 0⟩ =
      Except.error MatErr.degenerateDimension) ∧
    (∃ l, matmulBody (⟨1, 1, [2], 0⟩ : Mat Int) ⟨1, 1, [3], 0⟩ = Except.ok l) ∧
    (matmulBody (⟨2, 3, [1, 2, 3, 4, 5, 6], 0⟩ : Mat Int) ⟨2, 2, [1, 2, 3, 4], 0⟩ =
      Except.error MatErr.shapeMismatch) :=
  ⟨((matmul_error_conditions (⟨2, 0, [], 0⟩ : Mat Int) ⟨0, 3, [], 0⟩).2.1 rfl).mpr rfl,
   (matmul_error_conditions (⟨1, 1, [2], 0⟩ : Mat Int) ⟨1, 1, [3], 0⟩).2.2 rfl (by decide),
   (matmul_error_conditions (⟨2, 3, [1, 2, 3, 4, 5, 6], 0⟩ : Mat Int)
      ⟨2, 2, [1, 2, 3, 4], 0⟩).1.mpr (by decide)⟩

lemma zipWith_getD {α β γ : Type} [Inhabited α] [Inhabited β] [Inhabited γ]
    (f : α → β → γ) :
    ∀ (xs : List α) (ys : List β) (k : Nat), k < xs.length → k < ys.length →
      (List.zipWith f xs ys).getD k default = f (xs.getD k default) (ys.getD k default) := by
  intro xs
  induction xs with
  | nil => intro ys k hk _; exact absurd hk (Nat.not_lt_zero k)
  | cons x xs ih =>
    intro ys k hk hk'
    cases ys with
    | nil => exact absurd hk' (Nat.not_lt_zero k)
    | cons y ys =>
      cases k with
      | zero => rfl
      | succ k =>
        simp only [List.zipWith_cons_cons, List.getD_cons_succ]
        exact ih ys k (Nat.lt_of_succ_lt_succ hk) (Nat.lt_of_succ_lt_succ hk')

/-- **C3.** For every pair of matrices `a`, `b` and binary operation `f`,
`matmap(f, a, b)` raises the ShapeMismatch condition exactly when
`a.shape != b.shape`, and otherwise produces the sequence `f(a[k], b[k])`
for `k in [0, a.size)` in row-major order; in particular for `a` of shape
`(2, 3)` and `b` of shape `(3, 2)` it fails with ShapeMismatch even though
the sizes are equal. -/
theorem matmap_spec {α β γ : Type} [Inhabited α] [Inhabited β] [Inhabited γ]
    (f : α → β → γ) (a : Mat α) (b : Mat β) (ha : sizeInv a) (hb : sizeInv b) :
    (matmap f a b = Except.error MatErr.shapeMismatch ↔ matShape a ≠ matShape b) ∧
    (matShape a = matShape b →
      ∃ l, matmap f a b = Except.ok l ∧ l.length = matSize a ∧
        ∀ k, k < matSize a →
          l.getD k default = f (a.data.getD k default) (b.data.getD k default)) ∧
    (a.nrows = 2 → a.ncols = 3 → b.nrows = 3 → b.ncols = 2 →
      matmap f a b = Except.error MatErr.shapeMismatch) := by
  have hlen : matShape a = matShape b → a.data.length = b.data.length := by
    intro h
    rw [ha, hb, sizeInv, matShape, matShape] at *
    have h1 : a.nrows = b.nrows := congrArg Prod.fst h
    have h2 : a.ncols = b.ncols := congrArg Prod.snd h
    rw [h1, h2]
  refine ⟨?_, ?_, ?_⟩
  · by_cases h : matShape a = matShape b
    · simp [matmap, h]
    · simp [matmap, h]
  · intro h
    refine ⟨List.zipWith f a.data b.data, by simp [matmap, h], ?_, ?_⟩
    · rw [List.length_zipWith, hlen h, Nat.min_self, hb, matSize]
      rw [matShape, matShape, Prod.mk.injEq] at h
      rw [h.1, h.2]
    · intro k hk
      have hka : k < a.data.length := by rw [ha]; exact hk
      have hkb : k < b.data.length := by rw [← hlen h]; exact hka
      exact zipWith_getD f a.data b.data k hka hkb
  · intro h1 h2 h3 h4
    have h : matShape a ≠ matShape b := by
      rw [matShape, matShape, h1, h2, h3, h4]; decide
    simp [matmap, h]

/-- Witness for C3: element-wise addition at shapes `(2, 3)` vs `(3, 2)`
fails, and at equal shapes produces the pointwise results. -/
theorem matmap_spec_witness :
    (matmap (· + ·) (⟨2, 3, [1, 2, 3, 4, 5, 6], 0⟩ : Mat Int) ⟨3, 2, [1, 2, 3, 4, 5, 6], 0⟩ =
      Except.error MatErr.shapeMismatch) ∧
    (∃ l, matmap (· + ·) (⟨1, 2, [10, 20], 0⟩ : Mat Int) ⟨1, 2, [3, 4], 0⟩ = Except.ok l ∧
      l.length = matSize (⟨1, 2, [10, 20], 0⟩ : Mat Int) ∧
      ∀ k, k < matSize (⟨1, 2, [10, 20], 0⟩ : Mat Int) →
        l.getD k default =
          (⟨1, 2, [10, 20], 0⟩ : Mat Int).data.getD k default +
            (⟨1, 2, [3, 4], 0⟩ : Mat Int).data.getD k default) :=
  ⟨(matmap_spec (· + ·) ⟨2, 3, [1, 2, 3, 4, 5, 6], 0⟩ ⟨3, 2, [1, 2, 3, 4, 5, 6], 0⟩
      rfl rfl).2.2 rfl rfl rfl rfl,
   (matmap_spec (· + ·) ⟨1, 2, [10, 20], 0⟩ ⟨1, 2, [3, 4], 0⟩ rfl rfl).2.1 rfl⟩

lemma lexcmp_neg {α : Type} [LinearOrder α] :
    ∀ xs ys : List α, lexcmp ys xs = -lexcmp xs ys := by
  intro xs
  induction xs with
  | nil => intro ys; cases ys <;> simp [lexcmp]
  | cons x xs ih =>
    intro ys
    cases ys with
    | nil => simp [lexcmp]
    | cons y ys =>
      by_cases h1 : x < y
      · have h2 : ¬y < x := asymm h1
        simp [lexcmp, h1, h2]
      · by_cases h2 : y < x
        · simp [lexcmp, h1, h2]
        · simp [lexcmp, h1, h2, ih ys]

lemma lexcmp_first_lt {α : Type} [LinearOrder α] [Inhabited α] :
    ∀ (xs ys : List α) (k : Nat), k < xs.length → k < ys.length →
      (∀ j, j < k → xs.getD j default = ys.getD j default) →
      xs.getD k default < ys.getD k default →
      lexcmp xs ys = -1 := by
  intro xs
  induction xs with
  | nil => intro ys k hk _ _ _; exact absurd hk (Nat.not_lt_zero k)
  | cons x xs ih =>
    intro ys k hk hk' hpre hlt
    cases ys with
    | nil => exact absurd hk' (Nat.not_lt_zero k)
    | cons y ys =>
      cases k with
      | zero =>
        simp only [List.getD_cons_zero] at hlt
        simp [lexcmp, hlt]
      | succ k =>
        have hxy : x = y := by
          have := hpre 0 (Nat.succ_pos k)
          simpa using this
        subst hxy
        simp only [lexcmp, lt_irrefl, if_false]
        exact ih ys k (Nat.lt_of_succ_lt_succ hk) (Nat.lt_of_succ_lt_succ hk')
          (fun j hj => by simpa using hpre (j + 1) (Nat.succ_lt_succ hj))
          (by simpa using hlt)

lemma lexcmp_eq_zero_iff {α : Type} [LinearOrder α] :
    ∀ xs ys : List α, xs.length = ys.length → (lexcmp xs ys = 0 ↔ xs = ys) := by
  intro xs
  induction xs with
  | nil =>
    intro ys hl
    cases ys with
    | nil => simp [lexcmp]
    | cons y ys => exact absurd hl (by simp)
  | cons x xs ih =>
    intro ys hl
    cases ys with
    | nil => exact absurd hl (by simp)
    | cons y ys =>
      by_cases h1 : x < y
      · simp only [lexcmp, h1, if_true]
        constructor
        · intro h; exact absurd h (by decide)
        · intro h
          rw [List.cons.injEq] at h
          exact absurd (h.1 ▸ h1) (lt_irrefl y)
      · by_cases h2 : y < x
        · simp only [lexcmp, h1, h2, if_false, if_true]
          constructor
          · intro h; exact absurd h (by decide)
          · intro h
            rw [List.cons.injEq] at h
            exact absurd (h.1 ▸ h2) (lt_irrefl y)
        · have hxy : x = y := le_antisymm (not_lt.mp h2) (not_lt.mp h1)
          subst hxy
          simp only [lexcmp, lt_irrefl, if_false]
          rw [ih ys (by simpa using hl)]
          simp

lemma list_eq_of_getD_eq {α : Type} [Inhabited α] :
    ∀ xs ys : List α, xs.length = ys.length →
      (∀ k, k < xs.length → xs.getD k default = ys.getD k default) → xs = ys := by
  intro xs
  induction xs with
  | nil =>
    intro ys hl _
    cases ys with
    | nil => rfl
    | cons y ys => exact absurd hl (by simp)
  | cons x xs ih =>
    intro ys hl hall
    cases ys with
    | nil => exact absurd hl (by simp)
    | cons y ys =>
      have hxy : x = y := by simpa using hall 0 (Nat.succ_pos _)
      have htl : xs = ys :=
        ih ys (by simpa using hl)
          (fun k hk => by simpa using hall (k + 1) (Nat.succ_lt_succ hk))
      rw [hxy, htl]

/-- **C4.** For matrices of equal shape, `matcmp(a, b)` walks both in
row-major order and returns `-1` at the first index `k` where
`a[k] < b[k]`, `1` at the first index `k` where `a[k] > b[k]`, and `0`
when no such pair exists; `matcmp` raises ShapeMismatch when the shapes
differ; and the four whole-matrix ordering operators are exactly the sign
tests `matcmp(a, b) < 0`, `<= 0`, `> 0`, `>= 0`. -/
theorem matcmp_spec {α : Type} [LinearOrder α] [Inhabited α] (a b : Mat α)
    (ha : sizeInv a) (hb : sizeInv b) :
    (matShape a ≠ matShape b → matcmp a b = Except.error MatErr.shapeMismatch) ∧
    (matShape a = matShape b →
      (∀ k, k < matSize a →
        (∀ j, j < k → a.data.getD j default = b.data.getD j default) →
        (a.data.getD k default < b.data.getD k default → matcmp a b = Except.ok (-1)) ∧
        (b.data.getD k default < a.data.getD k default → matcmp a b = Except.ok 1)) ∧
      ((∀ k, k < matSize a → a.data.getD k default = b.data.getD k default) →
        matcmp a b = Except.ok 0)) ∧
    (matrixLt a b = (matcmp a b).map (fun c => decide (c < 0))) ∧
    (matrixLe a b = (matcmp a b).map (fun c => decide (c ≤ 0))) ∧
    (matrixGt a b = (matcmp a b).map (fun c => decide (0 < c))) ∧
    (matrixGe a b = (matcmp a b).map (fun c => decide (0 ≤ c))) := by
  have hsize : matShape a = matShape b → matSize a = matSize b := by
    intro h
    rw [matShape, matShape, Prod.mk.injEq] at h
    rw [matSize, matSize, h.1, h.2]
  have hlena : a.data.length = matSize a := ha
  have hlenb : b.data.length = matSize b := hb
  refine ⟨fun h => by simp [matcmp, h], fun h => ⟨fun k hk hpre => ⟨?_, ?_⟩, ?_⟩,
    rfl, rfl, rfl, rfl⟩
  · intro hlt
    have hkb : k < b.data.length := by rw [hlenb, ← hsize h]; exact hk
    rw [matcmp, if_pos h,
      lexcmp_first_lt a.data b.data k (by rw [hlena]; exact hk) hkb hpre hlt]
  · intro hgt
    have hkb : k < b.data.length := by rw [hlenb, ← hsize h]; exact hk
    rw [matcmp, if_pos h, lexcmp_neg b.data a.data,
      lexcmp_first_lt b.data a.data k hkb (by rw [hlena]; exact hk)
        (fun j hj => (hpre j hj).symm) hgt]
    rfl
  · intro hall
    have hleq : a.data.length = b.data.length := by
      rw [hlena, hlenb, hsize h]
    rw [matcmp, if_pos h,
      (lexcmp_eq_zero_iff a.data b.data hleq).mpr
        (list_eq_of_getD_eq a.data b.data hleq (fun k hk => hall k (by rw [← hlena]; exact hk)))]

/-- Witness for C4 on concrete matrices: a first-difference "less", a
first-difference "greater", an "equal" walk, a shape mismatch, and the
four sign-test operators. -/
theorem matcmp_spec_witness :
    (matcmp (⟨1, 2, [1, 9], 0⟩ : Mat Int) ⟨1, 2, [2, 0], 0⟩ = Except.ok (-1)) ∧
    (matcmp (⟨1, 2, [3, 0], 0⟩ : Mat Int) ⟨1, 2, [2, 9], 0⟩ = Except.ok 1) ∧
    (matcmp (⟨1, 2, [4, 5], 0⟩ : Mat Int) ⟨1, 2, [4, 5], 1⟩ = Except.ok 0) ∧
    (matcmp (⟨1, 2, [1, 2], 0⟩ : Mat Int) ⟨2, 1, [1, 2], 0⟩ =
      Except.error MatErr.shapeMismatch) ∧
    (matrixLt (⟨1, 2, [1, 9], 0⟩ : Mat Int) ⟨1, 2, [2, 0], 0⟩ =
      (matcmp (⟨1, 2, [1, 9], 0⟩ : Mat Int) ⟨1, 2, [2, 0], 0⟩).map (fun c => decide (c < 0))) :=
  ⟨(((matcmp_spec (⟨1, 2, [1, 9], 0⟩ : Mat Int) ⟨1, 2, [2, 0], 0⟩ rfl rfl).2.1 rfl).1
      0 (by decide) (fun j hj => absurd hj (Nat.not_lt_zero j))).1 (by decide),
   (((matcmp_spec (⟨1, 2, [3, 0], 0⟩ : Mat Int) ⟨1, 2, [2, 9], 0⟩ rfl rfl).2.1 rfl).1
      0 (by decide) (fun j hj => absurd hj (Nat.not_lt_zero j))).2 (by decide),
   ((matcmp_spec (⟨1, 2, [4, 5], 0⟩ : Mat Int) ⟨1, 2, [4, 5], 1⟩ rfl rfl).2.1 rfl).2
      (by decide),
   (matcmp_spec (⟨1, 2, [1, 2], 0⟩ : Mat Int) ⟨2, 1, [1, 2], 0⟩ rfl rfl).1 (by decide),
   (matcmp_spec (⟨1, 2, [1, 9], 0⟩ : Mat Int) ⟨1, 2, [2, 0], 0⟩ rfl rfl).2.2.1⟩

lemma zipWith_all_self {α : Type} (g : α → α → Bool) (hg : ∀ x, g x x = true) :
    ∀ l : List α, (List.zipWith g l l).all id = true := by
  intro l
  induction l with
  | nil => rfl
  | cons x l ih =>
    simp only [List.zipWith_cons_cons, List.all_cons, id_eq, Bool.and_eq_true]
    exact ⟨hg x, ih⟩

lemma zipWith_all_iff_eq {α : Type} (g : α → α → Bool) (hg : ∀ x y, g x y = true ↔ x = y) :
    ∀ xs ys : List α, xs.length = ys.length →
      ((List.zipWith g xs ys).all id = true ↔ xs = ys) := by
  intro xs
  induction xs with
  | nil =>
    intro ys hl
    cases ys with
    | nil => simp
    | cons y ys => exact absurd hl (by simp)
  | cons x xs ih =>
    intro ys hl
    cases ys with
    | nil => exact absurd hl (by simp)
    | cons y ys =>
      simp only [List.zipWith_cons_cons, List.all_cons, id, Bool.and_eq_true,
        List.cons.injEq]
      rw [hg x y, ih ys (by simpa using hl)]

lemma matrixEq_ok_true_iff {α : Type} [DecidableEq α] (beq : α → α → Bool)
    (hbeq : ∀ x y, beq x y = true ↔ x = y) (a b : Mat α)
    (hsh : matShape a = matShape b) (hlen : a.data.length = b.data.length) :
    (matrixEq beq a b = Except.ok true ↔ a.data = b.data) := by
  have hg : ∀ x y : α, (decide (x = y) || beq x y) = true ↔ x = y := by
    intro x y
    rw [Bool.or_eq_true, decide_eq_true_iff, hbeq]
    tauto
  by_cases hab : a = b
  · subst hab
    simp [matrixEq]
  · rw [matrixEq, if_neg hab, matmap, if_pos hsh]
    simp only [Except.map, Except.ok.injEq]
    exact zipWith_all_iff_eq _ hg a.data b.data hlen

/-- **C5.** For all matrices `a`, `b` of the same shape (over elements
admitting the comparisons used, here a linear order with a lawful
element `==`), exactly one of `a < b`, `a == b`, `a > b` holds, and
`matcmp(a, b) == -matcmp(b, a)`; `a == b` is computed by all-pairs
element equality via `matmap` while `a < b` and `a > b` go through
`matcmp`. -/
theorem matrix_order_totality {α : Type} [LinearOrder α] [Inhabited α]
    (beq : α → α → Bool) (hbeq : ∀ x y, beq x y = true ↔ x = y) (a b : Mat α)
    (ha : sizeInv a) (hb : sizeInv b) (hsh : matShape a = matShape b) :
    (∃ c, matcmp a b = Except.ok c ∧ matcmp b a = Except.ok (-c)) ∧
    (matrixLt a b = Except.ok true ∨ matrixEq beq a b = Except.ok true ∨
      matrixGt a b = Except.ok true) ∧
    ¬(matrixLt a b = Except.ok true ∧ matrixEq beq a b = Except.ok true) ∧
    ¬(matrixLt a b = Except.ok true ∧ matrixGt a b = Except.ok true) ∧
    ¬(matrixEq beq a b = Except.ok true ∧ matrixGt a b = Except.ok true) := by
  have hlen : a.data.length = b.data.length := by
    have h1 : a.nrows = b.nrows := congrArg Prod.fst hsh
    have h2 : a.ncols = b.ncols := congrArg Prod.snd hsh
    rw [sizeInv] at ha hb
    rw [ha, hb, h1, h2]
  have hcmp : matcmp a b = Except.ok (lexcmp a.data b.data) := by
    rw [matcmp, if_pos hsh]
  have hlt : matrixLt a b = Except.ok (decide (lexcmp a.data b.data < 0)) := by
    rw [matrixLt, hcmp]; rfl
  have hgt : matrixGt a b = Except.ok (decide (0 < lexcmp a.data b.data)) := by
    rw [matrixGt, hcmp]; rfl
  have hlt_iff : matrixLt a b = Except.ok true ↔ lexcmp a.data b.data < 0 := by
    rw [hlt]
    simp
  have hgt_iff : matrixGt a b = Except.ok true ↔ 0 < lexcmp a.data b.data := by
    rw [hgt]
    simp
  have heq_iff : matrixEq beq a b = Except.ok true ↔ lexcmp a.data b.data = 0 := by
    rw [matrixEq_ok_true_iff beq hbeq a b hsh hlen,
      lexcmp_eq_zero_iff a.data b.data hlen]
  refine ⟨⟨lexcmp a.data b.data, hcmp, ?_⟩, ?_, ?_, ?_, ?_⟩
  · rw [matcmp, if_pos hsh.symm, lexcmp_neg a.data b.data]
  · rcases lt_trichotomy (lexcmp a.data b.data) 0 with h | h | h
    · exact Or.inl (hlt_iff.mpr h)
    · exact Or.inr (Or.inl (heq_iff.mpr h))
    · exact Or.inr (Or.inr (hgt_iff.mpr h))
  · rintro ⟨h1, h2⟩
    exact absurd (heq_iff.mp h2) (hlt_iff.mp h1).ne
  · rintro ⟨h1, h2⟩
    exact absurd (hgt_iff.mp h2) (not_lt.mpr (hlt_iff.mp h1).le)
  · rintro ⟨h1, h2⟩
    exact absurd (heq_iff.mp h1) (hgt_iff.mp h2).ne'

/-- Witness for C5 at concrete inputs: the trichotomy and antisymmetry
conclusions at two same-shaped integer matrices. -/
theorem matrix_order_totality_witness :
    ((∃ c, matcmp (⟨2, 1, [1, 5], 0⟩ : Mat Int) ⟨2, 1, [1, 7], 3⟩ = Except.ok c ∧
        matcmp (⟨2, 1, [1, 7], 3⟩ : Mat Int) ⟨2, 1, [1, 5], 0⟩ = Except.ok (-c)) ∧
      (matrixLt (⟨2, 1, [1, 5], 0⟩ : Mat Int) ⟨2, 1, [1, 7], 3⟩ = Except.ok true ∨
        matrixEq (fun x y : Int => decide (x = y)) ⟨2, 1, [1, 5], 0⟩ ⟨2, 1, [1, 7], 3⟩ =
          Except.ok true ∨
        matrixGt (⟨2, 1, [1, 5], 0⟩ : Mat Int) ⟨2, 1, [1, 7], 3⟩ = Except.ok true) ∧
      ¬(matrixLt (⟨2, 1, [1, 5], 0⟩ : Mat Int) ⟨2, 1, [1, 7], 3⟩ = Except.ok true ∧
        matrixEq (fun x y : Int => decide (x = y)) ⟨2, 1, [1, 5], 0⟩ ⟨2, 1, [1, 7], 3⟩ =
          Except.ok true) ∧
      ¬(matrixLt (⟨2, 1, [1, 5], 0⟩ : Mat Int) ⟨2, 1, [1, 7], 3⟩ = Except.ok true ∧
        matrixGt (⟨2, 1, [1, 5], 0⟩ : Mat Int) ⟨2, 1, [1, 7], 3⟩ = Except.ok true) ∧
      ¬(matrixEq (fun x y : Int => decide (x = y)) ⟨2, 1, [1, 5], 0⟩ ⟨2, 1, [1, 7], 3⟩ =
          Except.ok true ∧
        matrixGt (⟨2, 1, [1, 5], 0⟩ : Mat Int) ⟨2, 1, [1, 7], 3⟩ = Except.ok true)) :=
  matrix_order_totality (fun x y : Int => decide (x = y))
    (fun x y => by simp) ⟨2, 1, [1, 5], 0⟩ ⟨2, 1, [1, 7], 3⟩ rfl rfl rfl

lemma zip_all_eq_zipWith_all {α β : Type} (g : α → β → Bool) :
    ∀ (xs : List α) (ys : List β),
      (xs.zip ys).all (fun p => g p.1 p.2) = (List.zipWith g xs ys).all id := by
  intro xs
  induction xs with
  | nil => intro ys; cases ys <;> rfl
  | cons x xs ih =>
    intro ys
    cases ys with
    | nil => rfl
    | cons y ys =>
      simp only [List.zip_cons_cons, List.zipWith_cons_cons, List.all_cons, id_eq]
      rw [ih ys]

/-- **Counterexample to C6.** The whole-matrix `<` operator of
`MatrixLike` is not the "all element-pairs are `<`-related" test: for
`a = [[1, 3]]` and `b = [[2, 2]]`, `a < b` returns true (lexicographic:
the first pair already decides) although the pair `(3, 2)` is not
`<`-related. -/
theorem matrix_lt_not_allpairs :
    matrixLt (⟨1, 2, [1, 3], 0⟩ : Mat Int) ⟨1, 2, [2, 2], 0⟩ = Except.ok true ∧
    allPairs (fun x y : Int => decide (x < y)) ⟨1, 2, [1, 3], 0⟩ ⟨1, 2, [2, 2], 0⟩ = false := by
  exact ⟨rfl, rfl⟩

/-- **C6 (amended).** The matrix-level `==` operator returns a single
boolean that is true exactly when all element-pairs satisfy
`x is y or x == y` (and `!=` is its negation), while the ordering
operators `<`, `<=`, `>`, `>=` return single booleans that are sign tests
of the lexicographic `matcmp` — not all-pairs tests; the parallel named
methods (the `lesser` family, modelled from their declared contracts)
return a full matrix of per-element results. -/
theorem matrix_comparison_operator_forms {α : Type} [LinearOrder α] [Inhabited α]
    (beq : α → α → Bool) (a b : Mat α) (ha : sizeInv a) (hb : sizeInv b)
    (hsh : matShape a = matShape b) :
    (matrixEq beq a b =
      Except.ok (allPairs (fun x y => decide (x = y) || beq x y) a b)) ∧
    (matrixNe beq a b =
      Except.ok (!allPairs (fun x y => decide (x = y) || beq x y) a b)) ∧
    (matrixLt a b = (matcmp a b).map (fun c => decide (c < 0))) ∧
    (matrixLe a b = (matcmp a b).map (fun c => decide (c ≤ 0))) ∧
    (matrixGt a b = (matcmp a b).map (fun c => decide (0 < c))) ∧
    (matrixGe a b = (matcmp a b).map (fun c => decide (0 ≤ c))) ∧
    (∃ l, lesser a b = Except.ok l ∧ l.length = matSize a ∧
      ∀ k, k < matSize a →
        l.getD k default = decide (a.data.getD k default < b.data.getD k default)) := by
  have hg : ∀ x : α, (decide (x = x) || beq x x) = true := by
    intro x; simp
  have heq : matrixEq beq a b =
      Except.ok (allPairs (fun x y => decide (x = y) || beq x y) a b) := by
    rw [allPairs, zip_all_eq_zipWith_all (fun x y => decide (x = y) || beq x y) a.data b.data]
    by_cases hab : a = b
    · subst hab
      rw [matrixEq, if_pos rfl, zipWith_all_self _ hg a.data]
    · rw [matrixEq, if_neg hab, matmap, if_pos hsh]
      rfl
  have hlen : a.data.length = b.data.length := by
    have h1 : a.nrows = b.nrows := congrArg Prod.fst hsh
    have h2 : a.ncols = b.ncols := congrArg Prod.snd hsh
    rw [sizeInv] at ha hb
    rw [ha, hb, h1, h2]
  refine ⟨heq, by rw [matrixNe, heq]; rfl, rfl, rfl, rfl, rfl, ?_⟩
  refine ⟨List.zipWith (fun x y => decide (x < y)) a.data b.data,
    by rw [lesser, matmap, if_pos hsh], ?_, ?_⟩
  · rw [List.length_zipWith, hlen, Nat.min_self, ← hlen, ha, matSize]
  · intro k hk
    have hka : k < a.data.length := by rw [ha]; exact hk
    have hkb : k < b.data.length := by rw [← hlen]; exact hka
    exact zipWith_getD _ a.data b.data k hka hkb

/-- Witness for the amended C6 at concrete inputs. -/
theorem matrix_comparison_operator_forms_witness :
    (matrixEq (fun x y : Int => decide (x = y)) ⟨1, 2, [1, 3], 0⟩ ⟨1, 2, [2, 2], 1⟩ =
      Except.ok (allPairs (fun x y : Int => decide (x = y) || decide (x = y))
        ⟨1, 2, [1, 3], 0⟩ ⟨1, 2, [2, 2], 1⟩)) ∧
    (matrixLt (⟨1, 2, [1, 3], 0⟩ : Mat Int) ⟨1, 2, [2, 2], 1⟩ =
      (matcmp (⟨1, 2, [1, 3], 0⟩ : Mat Int) ⟨1, 2, [2, 2], 1⟩).map
        (fun c => decide (c < 0))) ∧
    (∃ l, lesser (⟨1, 2, [1, 3], 0⟩ : Mat Int) ⟨1, 2, [2, 2], 1⟩ = Except.ok l ∧
      l.length = matSize (⟨1, 2, [1, 3], 0⟩ : Mat Int) ∧
      ∀ k, k < matSize (⟨1, 2, [1, 3], 0⟩ : Mat Int) →
        l.getD k default =
          decide ((⟨1, 2, [1, 3], 0⟩ : Mat Int).data.getD k default <
            (⟨1, 2, [2, 2], 1⟩ : Mat Int).data.getD k default)) :=
  ⟨(matrix_comparison_operator_forms (fun x y : Int => decide (x = y))
      ⟨1, 2, [1, 3], 0⟩ ⟨1, 2, [2, 2], 1⟩ rfl rfl rfl).1,
   (matrix_comparison_operator_forms (fun x y : Int => decide (x = y))
      ⟨1, 2, [1, 3], 0⟩ ⟨1, 2, [2, 2], 1⟩ rfl rfl rfl).2.2.1,
   (matrix_comparison_operator_forms (fun x y : Int => decide (x = y))
      ⟨1, 2, [1, 3], 0⟩ ⟨1, 2, [2, 2], 1⟩ rfl rfl rfl).2.2.2.2.2.2⟩

/-- **C10.** Matrix equality is reflexive regardless of the element type:
`a == a` returns true via the identity short-circuit, and for distinct
same-shaped matrices each element pair is compared as `x is y or x == y`,
so two matrices holding the identical element objects compare equal even
when the element type's own equality (`beq`) is not reflexive. -/
theorem matrix_eq_identity_reflexive {α : Type} [DecidableEq α]
    (beq : α → α → Bool) (a : Mat α) :
    (matrixEq beq a a = Except.ok true) ∧
    (∀ b : Mat α, a.nrows = b.nrows → a.ncols = b.ncols → a.data = b.data →
      matrixEq beq a b = Except.ok true) := by
  have hg : ∀ x : α, (decide (x = x) || beq x x) = true := by
    intro x; simp
  constructor
  · rw [matrixEq, if_pos rfl]
  · intro b h1 h2 h3
    by_cases hab : a = b
    · rw [matrixEq, if_pos hab]
    · have hsh : matShape a = matShape b := by rw [matShape, matShape, h1, h2]
      rw [matrixEq, if_neg hab, matmap, if_pos hsh, ← h3]
      simp only [Except.map, Except.ok.injEq]
      exact zipWith_all_self _ hg a.data

/-- Witness for C10: a matrix compared with itself, and with a distinct
same-shaped matrix holding the identical elements, under an element
equality that is never true (non-reflexive, NaN-like). -/
theorem matrix_eq_identity_reflexive_witness :
    (matrixEq (fun _ _ : Int => false) ⟨1, 2, [5, 7], 0⟩ ⟨1, 2, [5, 7], 0⟩ =
      Except.ok true) ∧
    (matrixEq (fun _ _ : Int => false) ⟨1, 2, [5, 7], 0⟩ ⟨1, 2, [5, 7], 1⟩ =
      Except.ok true) :=
  ⟨(matrix_eq_identity_reflexive (fun _ _ : Int => false) ⟨1, 2, [5, 7], 0⟩).1,
   (matrix_eq_identity_reflexive (fun _ _ : Int => false) ⟨1, 2, [5, 7], 0⟩).2
    ⟨1, 2, [5, 7], 1⟩ rfl rfl rfl⟩

/-! ## The capability protocols (`matrices/protocols.py`) -/

/-- A `ComplexLike` implementor: the abstract operations an implementing
class must supply (`__add__`, `__neg__`), together with its optional
overrides of the default-implemented `__sub__`/`__rsub__` (a subclass may
replace the protocol's default bodies). -/
structure ComplexLikeOps (α : Type) where
  add : α → α → α
  neg : α → α
  subOverride : Option (α → α → α) := Option.none
  rsubOverride : Option (α → α → α) := Option.none

/-- `ComplexLike.__sub__`: the override if the implementor supplies one,
otherwise the protocol's default body `self + -other`. -/
def ComplexLikeOps.sub {α : Type} (c : ComplexLikeOps α) (a b : α) : α :=
  match c.subOverride with
  | Option.some f => f a b
  | Option.none => c.add a (c.neg b)

/-- `ComplexLike.__rsub__`: the override if the implementor supplies one,
otherwise the protocol's default body `other + -self` (the method's
`self` is the right operand of the subtraction `other - self`). -/
def ComplexLikeOps.rsub {α : Type} (c : ComplexLikeOps α) (self other : α) : α :=
  match c.rsubOverride with
  | Option.some f => f self other
  | Option.none => c.add other (c.neg self)

/-- A `ComplexMatrixLike` implementor: element-wise `__add__`/`__neg__`
plus optional overrides of the default `__sub__`/`__rsub__`. -/
structure ComplexMatrixOps (α : Type) where
  madd : Mat α → Mat α → Mat α
  mneg : Mat α → Mat α
  msubOverride : Option (Mat α → Mat α → Mat α) := Option.none
  mrsubOverride : Option (Mat α → Mat α → Mat α) := Option.none

/-- `ComplexMatrixLike.__sub__`: default body `self + -other`. -/
def ComplexMatrixOps.msub {α : Type} (c : ComplexMatrixOps α) (a b : Mat α) : Mat α :=
  match c.msubOverride with
  | Option.some f => f a b
  | Option.none => c.madd a (c.mneg b)

/-- `ComplexMatrixLike.__rsub__`: default body `other + -self`. -/
def ComplexMatrixOps.mrsub {α : Type} (c : ComplexMatrixOps α) (self other : Mat α) : Mat α :=
  match c.mrsubOverride with
  | Option.some f => f self other
  | Option.none => c.madd other (c.mneg self)

/-- The built-in integers as a `ComplexLike` implementor that does not
override subtraction. -/
def intComplexLike : ComplexLikeOps Int :=
  { add := (· + ·), neg := (-·) }

/-- Integer matrices as a `ComplexMatrixLike` implementor that does not
override subtraction: element-wise addition and negation. -/
def intComplexMatrix : ComplexMatrixOps Int :=
  { madd := fun u v => ⟨u.nrows, u.ncols, List.zipWith (· + ·) u.data v.data, 0⟩,
    mneg := fun u => ⟨u.nrows, u.ncols, u.data.map (-·), 0⟩ }

/-- **C7.** For every `ComplexLike` value (and every `ComplexMatrixLike`
matrix) that does not override subtraction, `a - b` equals `a + (-b)` and
the reflected form `b - a` equals `b + (-a)`: subtraction is
default-derived from addition and negation. -/
theorem sub_default_derived {α : Type} (c : ComplexLikeOps α) (mc : ComplexMatrixOps α)
    (x y : α) (u v : Mat α)
    (hs : c.subOverride = Option.none) (hr : c.rsubOverride = Option.none)
    (hms : mc.msubOverride = Option.none) (hmr : mc.mrsubOverride = Option.none) :
    c.sub x y = c.add x (c.neg y) ∧
    c.rsub x y = c.add y (c.neg x) ∧
    mc.msub u v = mc.madd u (mc.mneg v) ∧
    mc.mrsub u v = mc.madd v (mc.mneg u) := by
  refine ⟨?_, ?_, ?_, ?_⟩
  · rw [ComplexLikeOps.sub, hs]
  · rw [ComplexLikeOps.rsub, hr]
  · rw [ComplexMatrixOps.msub, hms]
  · rw [ComplexMatrixOps.mrsub, hmr]

/-- Witness for C7: for the integer instances, the default-derived
subtraction agrees with genuine subtraction at concrete inputs. -/
theorem sub_default_derived_witness :
    (intComplexLike.sub 5 3 = intComplexLike.add 5 (intComplexLike.neg 3) ∧
      intComplexLike.rsub 5 3 = intComplexLike.add 3 (intComplexLike.neg 5) ∧
      intComplexMatrix.msub ⟨1, 2, [4, 9], 0⟩ ⟨1, 2, [1, 5], 0⟩ =
        intComplexMatrix.madd ⟨1, 2, [4, 9], 0⟩ (intComplexMatrix.mneg ⟨1, 2, [1, 5], 0⟩) ∧
      intComplexMatrix.mrsub ⟨1, 2, [4, 9], 0⟩ ⟨1, 2, [1, 5], 0⟩ =
        intComplexMatrix.madd ⟨1, 2, [1, 5], 0⟩ (intComplexMatrix.mneg ⟨1, 2, [4, 9], 0⟩)) ∧
    intComplexLike.sub 5 3 = 2 ∧
    intComplexLike.rsub 5 3 = -2 ∧
    intComplexMatrix.msub ⟨1, 2, [4, 9], 0⟩ ⟨1, 2, [1, 5], 0⟩ = ⟨1, 2, [3, 4], 0⟩ :=
  ⟨sub_default_derived intComplexLike intComplexMatrix 5 3
      ⟨1, 2, [4, 9], 0⟩ ⟨1, 2, [1, 5], 0⟩ rfl rfl rfl rfl, rfl, rfl, rfl⟩

/-- An `IntegralLike` implementor: the abstract `__int__` conversion the
implementing class must supply. -/
structure IntegralLikeOps (α : Type) where
  toInt : α → Int

/-- `IntegralLike.__index__`: the default body is `return int(self)` — it
returns the implementor's `__int__` conversion unchanged; no exactness
check is performed and nothing is raised. -/
def IntegralLikeOps.index {α : Type} (c : IntegralLikeOps α) (a : α) :
    Except MatErr Int :=
  Except.ok (c.toInt a)

/-- A rational-valued `IntegralLike` implementor whose `__int__`
truncates (as Python's `int()` does on non-integers): the quotient of
numerator by denominator. -/
def ratIntegralLike : IntegralLikeOps ℚ :=
  { toInt := fun q => q.num / (q.den : Int) }

/-- The rational `5/2`, given in lowest terms. -/
def fiveHalves : ℚ :=
  ⟨5, 2, by decide, by decide⟩

/-- **Counterexample to C8.** For the value `5/2`, which has no exact
integer representation (`den = 2 ≠ 1`), the default `__index__` does not
fail with LossyConversion: it returns `2`, a lossy result
(`(2 : ℚ) ≠ 5/2`). -/
theorem index_lossy_counterexample :
    ratIntegralLike.index fiveHalves = Except.ok 2 ∧
    fiveHalves.den ≠ 1 ∧
    (2 : ℚ) ≠ fiveHalves := by
  have h : ratIntegralLike.toInt fiveHalves = 2 := by decide
  exact ⟨by rw [IntegralLikeOps.index, h], by decide, by decide⟩

/-- **C8 (amended).** The default `__index__` of `IntegralLike` simply
returns `int(self)` (the implementor's `__int__` conversion) and never
raises; for the truncating rational implementor it is lossless exactly
when the value is exactly representable as an integer (denominator 1). -/
theorem index_default_behavior {α : Type} (c : IntegralLikeOps α) (a : α) :
    c.index a = Except.ok (c.toInt a) ∧
    ∀ q : ℚ, ((ratIntegralLike.toInt q : ℚ) = q ↔ q.den = 1) := by
  refine ⟨rfl, ?_⟩
  intro q
  constructor
  · intro h
    rw [← h, Rat.den_intCast]
  · intro h
    rw [ratIntegralLike]
    simp only [h, Int.natCast_one, Int.ediv_one]
    conv_rhs => rw [← Rat.num_div_den q]
    rw [h]
    norm_num

/-- Witness for the amended C8 at concrete inputs: a lossless conversion
of the integer-valued `3` and the non-failing lossy conversion of `5/2`. -/
theorem index_default_behavior_witness :
    (ratIntegralLike.index (3 : ℚ) = Except.ok (ratIntegralLike.toInt (3 : ℚ))) ∧
    ((ratIntegralLike.toInt fiveHalves : ℚ) = fiveHalves ↔ fiveHalves.den = 1) :=
  ⟨(index_default_behavior ratIntegralLike (3 : ℚ)).1,
   (index_default_behavior ratIntegralLike (3 : ℚ)).2 fiveHalves⟩

/-- **C9.** Calling `matmul(a, b)` itself never raises: because `matmul`
is a generator, its shape-mismatch and zero-inner-dimension validations
are deferred, and the error surfaces only when the returned iterator is
first advanced; `matmap`, by contrast, performs its shape validation
eagerly at the call site. -/
theorem matmul_lazy_matmap_eager {α : Type} [Add α] [Mul α] [Inhabited α]
    (a b : Mat α) (f : α → α → α)
    (hs : matShape a ≠ matShape b) (hn : a.ncols ≠ b.nrows) :
    (∀ a' b' : Mat α, matmulCall a' b' = Except.ok ⟨matmulBody a' b'⟩) ∧
    matmulCall a b = Except.ok ⟨Except.error MatErr.shapeMismatch⟩ ∧
    Gen.next (⟨Except.error MatErr.shapeMismatch⟩ : Gen α) =
      Except.error MatErr.shapeMismatch ∧
    (∀ a' b' : Mat α, a'.ncols = b'.nrows → a'.ncols = 0 →
      matmulCall a' b' = Except.ok ⟨Except.error MatErr.degenerateDimension⟩) ∧
    matmap f a b = Except.error MatErr.shapeMismatch := by
  refine ⟨fun a' b' => rfl, ?_, rfl, ?_, by rw [matmap, if_neg hs]⟩
  · rw [matmulCall]
    have : matmulBody a b = Except.error MatErr.shapeMismatch := by
      rw [matmulBody]
      simp only [hn, ne_eq, not_false_eq_true, if_true]
    rw [this]
  · intro a' b' h1 h2
    rw [matmulCall]
    have h2' : b'.nrows = 0 := h1 ▸ h2
    have : matmulBody a' b' = Except.error MatErr.degenerateDimension := by
      rw [matmulBody]
      simp only [h1, h2, h2', ne_eq, not_true_eq_false, if_false, if_true]
    rw [this]

/-- Witness for C9: at shapes `(2, 3)` and `(2, 2)` the call to `matmul`
succeeds with a suspended generator whose first advance raises, while the
call to `matmap` raises immediately. -/
theorem matmul_lazy_matmap_eager_witness :
    matShape (⟨2, 3, [1, 2, 3, 4, 5, 6], 0⟩ : Mat Int) ≠
      matShape (⟨2, 2, [1, 2, 3, 4], 0⟩ : Mat Int) ∧
    matmulCall (⟨2, 3, [1, 2, 3, 4, 5, 6], 0⟩ : Mat Int) ⟨2, 2, [1, 2, 3, 4], 0⟩ =
      Except.ok ⟨Except.error MatErr.shapeMismatch⟩ ∧
    Gen.next (⟨Except.error MatErr.shapeMismatch⟩ : Gen Int) =
      Except.error MatErr.shapeMismatch ∧
    matmap (· + ·) (⟨2, 3, [1, 2, 3, 4, 5, 6], 0⟩ : Mat Int) ⟨2, 2, [1, 2, 3, 4], 0⟩ =
      Except.error MatErr.shapeMismatch :=
  ⟨by decide,
   (matmul_lazy_matmap_eager (⟨2, 3, [1, 2, 3, 4, 5, 6], 0⟩ : Mat Int)
      ⟨2, 2, [1, 2, 3, 4], 0⟩ (· + ·) (by decide) (by decide)).2.1,
   (matmul_lazy_matmap_eager (⟨2, 3, [1, 2, 3, 4, 5, 6], 0⟩ : Mat Int)
      ⟨2, 2, [1, 2, 3, 4], 0⟩ (· + ·) (by decide) (by decide)).2.2.1,
   (matmul_lazy_matmap_eager (⟨2, 3, [1, 2, 3, 4, 5, 6], 0⟩ : Mat Int)
      ⟨2, 2, [1, 2, 3, 4], 0⟩ (· + ·) (by decide) (by decide)).2.2.2.2⟩

end Matrices
